import Mathlib

/-!
Shallow embedding of the EFI disk layer of grub-fedora (`efi/efidisk.c`).

A firmware device path is a sequence of variable-length binary records
("nodes").  Each record carries a one-byte type, a one-byte subtype, a
two-byte little-endian total length (header included), and an opaque
payload of `length - 4` bytes.  A path is terminated by a node whose
masked type is `GRUB_EFI_END_DEVICE_PATH_TYPE` (0x7f) and whose subtype
is `GRUB_EFI_END_ENTIRE_DEVICE_PATH_SUBTYPE` (0xff).

We model a node as a structured record and a path as a `List DPNode`;
byte-level operations (`grub_memcmp` over a record) act on the record's
serialized bytes.  All machine integers are modelled as `Nat`; the byte
mask `& 0x7f` of `GRUB_EFI_DEVICE_PATH_TYPE` is written `% 128`.
-/

/-- One device-path node: `type`, `subtype`, declared total length
(header included, little-endian on the wire) and the payload bytes. -/
structure DPNode where
  typ : Nat
  subtyp : Nat
  len : Nat
  payload : List Nat
deriving DecidableEq

/-- Macro `GRUB_EFI_DEVICE_PATH_TYPE (dp)` is `dp->type & 0x7f`, i.e. `typ % 128`. -/
def dpType (n : DPNode) : Nat := n.typ % 128

/-- Constant `GRUB_EFI_END_DEVICE_PATH_TYPE` (0x7f). -/
def GRUB_EFI_END_DEVICE_PATH_TYPE : Nat := 0x7f

/-- Constant `GRUB_EFI_END_ENTIRE_DEVICE_PATH_SUBTYPE` (0xff). -/
def GRUB_EFI_END_ENTIRE_DEVICE_PATH_SUBTYPE : Nat := 0xff

/-- Constant `GRUB_EFI_MESSAGING_DEVICE_PATH_TYPE` (0x03). -/
def GRUB_EFI_MESSAGING_DEVICE_PATH_TYPE : Nat := 0x03

/-- Constant `GRUB_EFI_ACPI_DEVICE_PATH_TYPE` (0x02). -/
def GRUB_EFI_ACPI_DEVICE_PATH_TYPE : Nat := 0x02

/-- Constant `GRUB_EFI_MEDIA_DEVICE_PATH_TYPE` (0x04). -/
def GRUB_EFI_MEDIA_DEVICE_PATH_TYPE : Nat := 0x04

/-- Constant `GRUB_EFI_CDROM_DEVICE_PATH_SUBTYPE` (0x02). -/
def GRUB_EFI_CDROM_DEVICE_PATH_SUBTYPE : Nat := 0x02

/-- Constant `GRUB_EFI_HARD_DRIVE_DEVICE_PATH_SUBTYPE` (0x01). -/
def GRUB_EFI_HARD_DRIVE_DEVICE_PATH_SUBTYPE : Nat := 0x01

/-- Constant `SECTOR_SIZE` (0x200) from `shared.h`. -/
def SECTOR_SIZE : Nat := 512

/-- Macro `GRUB_EFI_END_ENTIRE_DEVICE_PATH (dp)`: masked type 0x7f and subtype 0xff. -/
def isEnd (n : DPNode) : Bool :=
  dpType n == GRUB_EFI_END_DEVICE_PATH_TYPE &&
  n.subtyp == GRUB_EFI_END_ENTIRE_DEVICE_PATH_SUBTYPE

/-- The in-memory bytes of a node record: type, subtype, the two
little-endian length bytes, then the payload. -/
def serial (n : DPNode) : List Nat :=
  n.typ :: n.subtyp :: (n.len % 256) :: (n.len / 256) :: n.payload

/-- A structurally valid node: byte fields in range and declared length
consistent with the payload actually present (header is 4 bytes). -/
def nodeWF (n : DPNode) : Bool :=
  n.typ < 256 && n.subtyp < 256 && (n.len == 4 + n.payload.length) &&
  n.payload.all (· < 256)

/-- A well-formed device path: a non-empty node sequence whose nodes are
valid up to and including the first terminator (bytes after the
terminator are never inspected by the code and are unconstrained). -/
def pathWF : List DPNode → Bool
  | [] => false
  | n :: rest => nodeWF n && (if isEnd n then true else pathWF rest)

/-- Function `grub_memcmp` over byte lists: the (signed) difference of the first
differing byte pair, 0 if none within the compared range. -/
def memcmp : List Nat → List Nat → Int
  | a :: as, b :: bs => if a ≠ b then (a : Int) - (b : Int) else memcmp as bs
  | _, _ => 0

/-- The per-node stages of `compare_device_paths`: masked type (larger
type first), then subtype, then declared length, then `grub_memcmp` over
the `len` record bytes.  The C code computes these four stages inline in
its loop; the first non-zero stage is returned. -/
def nodeCmp (n1 n2 : DPNode) : Int :=
  if dpType n1 ≠ dpType n2 then (dpType n2 : Int) - (dpType n1 : Int)
  else if n1.subtyp ≠ n2.subtyp then (n1.subtyp : Int) - (n2.subtyp : Int)
  else if n1.len ≠ n2.len then (n1.len : Int) - (n2.len : Int)
  else memcmp (serial n1) (serial n2)

/-- Function `compare_device_paths` on two non-null paths: walk the node pairs in
lockstep, return the first non-zero stage difference, and report 0 only
when both sides reach the terminator with every stage equal.  The
catch-all returns 1 for a path that runs out before a terminator (the C
code would walk off the buffer; such paths are excluded by `pathWF`). -/
def compare_device_paths : List DPNode → List DPNode → Int
  | n1 :: r1, n2 :: r2 =>
    if nodeCmp n1 n2 ≠ 0 then nodeCmp n1 n2
    else if isEnd n1 then 0
    else compare_device_paths r1 r2
  | _, _ => 1

/-- Function `compare_device_paths` including the null checks: a null argument
compares as 1 ("unequal to everything"). -/
def compare_device_paths_opt : Option (List DPNode) → Option (List DPNode) → Int
  | some a, some b => compare_device_paths a b
  | _, _ => 1

/-- Function `duplicate_device_path`: total length is accumulated node by node up
to and including the terminator, and exactly those bytes are copied (the
allocation is modelled as succeeding).  In the node model this truncates
the sequence just after the first terminator. -/
def duplicate_device_path : List DPNode → List DPNode
  | [] => []
  | n :: rest => if isEnd n then [n] else n :: duplicate_device_path rest

/-- Inner loop of `find_last_device_path`: `p` is the current node,
walk until the successor is a terminator and return the suffix starting
at `p`. -/
def flaux (p : DPNode) : List DPNode → Option (List DPNode)
  | [] => none
  | next :: rest =>
    if isEnd next then some (p :: next :: rest) else flaux next rest

/-- Function `find_last_device_path`: the suffix starting at the node right
before the end node, or none if the path is an immediate terminator. -/
def find_last_device_path : List DPNode → Option (List DPNode)
  | [] => none
  | n :: rest => if isEnd n then none else flaux n rest

/-- The 4-byte end-entire node written by `iterate_child_devices` (and
by the CDROM truncation in `grub_get_drive_partition_from_bdev_handle`):
type `GRUB_EFI_END_DEVICE_PATH_TYPE`, subtype
`GRUB_EFI_END_ENTIRE_DEVICE_PATH_SUBTYPE`, length 4. -/
def endNode4 : DPNode := ⟨0x7f, 0xff, 4, []⟩

/-- Helper for the in-place truncation: `p` is the current node; when
its successor is the terminator, `p` is overwritten by `endNode4`
(dropping `p` and everything after it from the compared region). -/
def truncAux (p : DPNode) : List DPNode → List DPNode
  | [] => [endNode4]
  | next :: rest => if isEnd next then [endNode4] else p :: truncAux next rest

/-- The truncation performed by `iterate_child_devices` on a duplicated
path: the node returned by `find_last_device_path` is overwritten with a
4-byte end-entire node, making the path one node shorter. -/
def truncate_last : List DPNode → List DPNode
  | [] => []
  | n :: rest => if isEnd n then [] else truncAux n rest

/-- The child test of `iterate_child_devices`: duplicate the candidate's
path, truncate it by one node to a terminator, and compare the result
against the parent's full path for equality. -/
def is_child (parent candidate : List DPNode) : Bool :=
  compare_device_paths (truncate_last (duplicate_device_path candidate)) parent == 0

/-- Record `struct grub_efidisk_data` together with the block-I/O media fields
the code reads through `block_io->media` (`media_id`, `read_only`,
`block_size`, `last_block`).  `last_device_path` is the cached result of
`find_last_device_path` on the owned path (null for an empty path). -/
structure Device where
  handle : Nat
  device_path : List DPNode
  last_device_path : Option (List DPNode)
  media_id : Nat
  read_only : Bool
  block_size : Nat
  last_block : Nat
deriving DecidableEq

/-- A device whose owned path is well formed and non-empty (its first
node is not already a terminator) — the shape every device built by
`make_devices` has, since handles with an absent or empty path are
skipped during enumeration. -/
def devWF (d : Device) : Bool :=
  match d.device_path with
  | [] => false
  | n :: _ => pathWF d.device_path && !isEnd n

/-- The comparison `add_device` applies between a list entry `e` and the
device `d` being inserted: first the two `find_last_device_path` leaves
(through `compare_device_paths`' null check), and on a tie the two full
paths. -/
def add_cmp (e d : Device) : Int :=
  let r := compare_device_paths_opt (find_last_device_path e.device_path)
            (find_last_device_path d.device_path)
  if r = 0 then compare_device_paths e.device_path d.device_path else r

/-- Function `add_device`: sorted insertion with deduplication.  The scan stops
at the first entry whose `add_cmp` against `d` is ≥ 0; an exact tie
(0) skips the insertion, otherwise a copy of `d` is spliced in.  The
`alloc` flag models the `grub_malloc` of the new list node: when it
fails, `add_device` returns with the list unchanged and reports
nothing (the C function is `void`). -/
def add_device_alloc (alloc : Bool) : List Device → Device → List Device
  | [], d => if alloc then [d] else []
  | e :: rest, d =>
    if add_cmp e d = 0 then e :: rest
    else if add_cmp e d > 0 then (if alloc then d :: e :: rest else e :: rest)
    else e :: add_device_alloc alloc rest d

/-- Function `add_device` with the allocation succeeding. -/
def add_device (l : List Device) (d : Device) : List Device :=
  add_device_alloc true l d

/-- The three persistent category lists (`fd_devices`, `hd_devices`,
`cd_devices`). -/
structure DeviceLists where
  fd : List Device
  hd : List Device
  cd : List Device
deriving DecidableEq

/-- Masked type of the node a (leaf) path pointer designates. -/
def dpHeadType : List DPNode → Nat
  | [] => 0
  | n :: _ => dpType n

/-- One iteration of the `name_devices` loop: classify device `d` by its
cached leaf node and media parameters and insert it into the matching
persistent list.  A device with no leaf (`continue`) or with any other
leaf type is inserted nowhere.  The two `if`s are sequential in the C
code (not `else if`), which is reproduced here. -/
def name_devices_core (alloc : Bool) (s : DeviceLists) (d : Device) : DeviceLists :=
  match d.last_device_path with
  | none => s
  | some dp =>
    let s1 :=
      if dpHeadType dp = GRUB_EFI_MESSAGING_DEVICE_PATH_TYPE then
        if d.read_only && decide (d.block_size > SECTOR_SIZE) then
          { s with cd := add_device_alloc alloc s.cd d }
        else
          { s with hd := add_device_alloc alloc s.hd d }
      else s
    if dpHeadType dp = GRUB_EFI_ACPI_DEVICE_PATH_TYPE then
      { s1 with fd := add_device_alloc alloc s1.fd d }
    else s1

/-- Function `name_devices`: fold the classification step over the transient
enumeration result. -/
def name_devices (alloc : Bool) (devices : List Device) (s : DeviceLists) : DeviceLists :=
  devices.foldl (name_devices_core alloc) s

/-- Function `get_device`: walk `num` links; returns the `num`-th entry if the
list is long enough. -/
def get_device (devices : List Device) (num : Nat) : Option Device :=
  (devices.drop num).head?

/-- Process-wide state consulted by the drive abstraction: the three
persistent lists plus the externally assigned `cdrom_drive` id and the
`GRUB_INVALID_DRIVE` sentinel (0xff in `shared.h`, kept abstract
here). -/
structure DiskState where
  lists : DeviceLists
  cdrom_drive : Nat
  invalid_drive : Nat
deriving DecidableEq

/-- Function `get_device_from_drive`: sentinel ids resolve to nothing; the
`cdrom_drive` id resolves to the first optical entry; ids with bit 7 set
index the hard-disk list from 0x80; the rest index the floppy list. -/
def get_device_from_drive (st : DiskState) (drive : Nat) : Option Device :=
  if drive = st.invalid_drive then none
  else if drive = st.cdrom_drive then get_device st.lists.cd 0
  else if drive.testBit 7 then get_device st.lists.hd (drive - 0x80)
  else get_device st.lists.fd drive

/-- Constant `BIOSDISK_FLAG_LBA_EXTENSION` (0x1) from `shared.h`. -/
def BIOSDISK_FLAG_LBA_EXTENSION : Nat := 0x1

/-- The out-parameter written by `get_diskinfo`. -/
structure DiskGeometry where
  cylinders : Nat
  heads : Nat
  sectors : Nat
  total_sectors : Nat
  sector_size : Nat
  flags : Nat
deriving DecidableEq

/-- Function `get_diskinfo`: resolve the drive, then fill the geometry:
`total_sectors = last_block + 1`, `sector_size = block_size`, a fixed 63
sectors per track, 1 or 255 heads depending on `total_sectors / 63 <
255`, and truncating-division cylinders. -/
def get_diskinfo (st : DiskState) (drive : Nat) : Option DiskGeometry :=
  match get_device_from_drive st drive with
  | none => none
  | some d =>
    let total := d.last_block + 1
    let heads := if total / 63 < 255 then 1 else 255
    some { cylinders := total / 63 / heads, heads := heads, sectors := 63,
           total_sectors := total, sector_size := d.block_size,
           flags := BIOSDISK_FLAG_LBA_EXTENSION }

/-- One byte-addressed call to the external disk-I/O transfer
collaborator (`dio->read` / `dio->write`): direction, the device's media
identifier, a byte offset and a byte length.  The destination buffer is
opaque and not modelled. -/
structure TransferReq where
  write : Bool
  media_id : Nat
  offset : Nat
  length : Nat
deriving DecidableEq

/-- The request `grub_efidisk_read` / `grub_efidisk_write` issue for a
sector-addressed transfer: offset `sector * block_size`, length
`size * block_size`, with the media id from the device's media. -/
def efidisk_io_request (write : Bool) (d : Device) (sector size : Nat) : TransferReq :=
  { write := write, media_id := d.media_id,
    offset := sector * d.block_size, length := size * d.block_size }

/-- Constant `GRUB_EFI_SUCCESS` (0). -/
def GRUB_EFI_SUCCESS : Nat := 0

/-- Function `grub_efidisk_read`: delegate to the collaborator's byte-addressed
read; any non-success status is reported as -1, success as 0.  The
collaborator is passed in as a function from request to status. -/
def grub_efidisk_read (collab : TransferReq → Nat) (d : Device) (sector size : Nat) : Int :=
  if collab (efidisk_io_request false d sector size) ≠ GRUB_EFI_SUCCESS then -1 else 0

/-- Function `grub_efidisk_write`: as `grub_efidisk_read`, direction write. -/
def grub_efidisk_write (collab : TransferReq → Nat) (d : Device) (sector size : Nat) : Int :=
  if collab (efidisk_io_request true d sector size) ≠ GRUB_EFI_SUCCESS then -1 else 0

/-- Constant `BIOSDISK_READ` (0x0) from `shared.h`. -/
def BIOSDISK_READ : Nat := 0x0

/-- Constant `BIOSDISK_WRITE` (0x1) from `shared.h`. -/
def BIOSDISK_WRITE : Nat := 0x1

/-- Function `biosdisk`: resolve the drive (-1 if it does not resolve), route the
subfunction to `grub_efidisk_read` or `grub_efidisk_write` (any other
subfunction is rejected with -1), and then — exactly as the C code does —
ignore the saved transfer result `ret` and return 0.  The
segment-derived destination buffer is opaque and not modelled. -/
def biosdisk (st : DiskState) (collab : TransferReq → Nat)
    (subfunc drive sector nsec : Nat) : Int :=
  match get_device_from_drive st drive with
  | none => -1
  | some d =>
    if subfunc = BIOSDISK_READ then
      let _ret := grub_efidisk_read collab d sector nsec
      0
    else if subfunc = BIOSDISK_WRITE then
      let _ret := grub_efidisk_write collab d sector nsec
      0
    else -1

/-- The preprocessing loop at the top of
`grub_get_drive_partition_from_bdev_handle`: walk the handle's path and
overwrite the first media/CDROM node in place with a 4-byte end-entire
node (then the end-of-path test on the overwritten node stops the
walk). -/
def cdTruncate : List DPNode → List DPNode
  | [] => []
  | n :: rest =>
    if dpType n = GRUB_EFI_MEDIA_DEVICE_PATH_TYPE ∧
       n.subtyp = GRUB_EFI_CDROM_DEVICE_PATH_SUBTYPE then endNode4 :: rest
    else if isEnd n then n :: rest
    else n :: cdTruncate rest

/-- Scan a persistent list for the first entry whose full path compares
equal to `dp`, counting drive numbers up from `base`. -/
def find_first_match (dp : List DPNode) : List Device → Nat → Option Nat
  | [], _ => none
  | d :: rest, base =>
    if compare_device_paths d.device_path dp = 0 then some base
    else find_first_match dp rest (base + 1)

/-- Function `iterate_child_devices`: over a transient enumeration, invoke `hook`
on each device that passes the child test against `d`, stopping at the
first device for which the hook succeeds (the duplication's allocation
is modelled as succeeding). -/
def iterate_child_devices (devices : List Device) (d : Device)
    (hook : Device → Bool) : Option Device :=
  match devices with
  | [] => none
  | p :: rest =>
    if is_child d.device_path p.device_path && hook p then some p
    else iterate_child_devices rest d hook

/-- Little-endian byte decoding. -/
def leNat : List Nat → Nat
  | [] => 0
  | b :: rest => b + 256 * leNat rest

/-- Field `partition_start` of the `grub_efi_hard_drive_device_path_t` the
code `memcpy`s from a child's leaf node: a 64-bit little-endian field at
payload offset 4 (after the 32-bit partition number). -/
def hd_partition_start (c : Device) : Nat :=
  match c.last_device_path with
  | some (n :: _) => leNat ((n.payload.drop 4).take 8)
  | _ => 0

/-- Field `partition_size` of the copied hard-drive node: the 64-bit
little-endian field at payload offset 12. -/
def hd_partition_size (c : Device) : Nat :=
  match c.last_device_path with
  | some (n :: _) => leNat ((n.payload.drop 12).take 8)
  | _ => 0

/-- One entry yielded by the external `next_partition` walker: partition
index, partition type, start sector and length in sectors. -/
structure PartEntry where
  part : Nat
  ptype : Nat
  start : Nat
  len : Nat
deriving DecidableEq

/-- The `while (next_partition (...))` loop: first yielded partition
with a non-zero type whose (start, length) matches the target. -/
def walk_partitions (start len : Nat) : List PartEntry → Option Nat
  | [] => none
  | e :: rest =>
    if e.ptype ≠ 0 ∧ e.start = start ∧ e.len = len then some e.part
    else walk_partitions start len rest

/-- The hook `find_bdev`: a child whose full path compares equal to the
handle's (truncated) path. -/
def find_bdev_hook (dp : List DPNode) (c : Device) : Bool :=
  compare_device_paths c.device_path dp == 0

/-- The child-search loop over the hard-disk list: for each hard disk
(drive numbers from 0x80) run `iterate_child_devices` with `find_bdev`;
stop at the first hard disk under which a child matching `dp` is
found. -/
def hd_child_search (trans : List Device) (dp : List DPNode) :
    List Device → Nat → Option (Nat × Device)
  | [], _ => none
  | d :: rest, drv =>
    match iterate_child_devices trans d (find_bdev_hook dp) with
    | some c => some (drv, c)
    | none => hd_child_search trans dp rest (drv + 1)

/-- Phases of `grub_get_drive_partition_from_bdev_handle` after the
floppy and cdrom checks: scan the hard-disk list for an exact whole-disk
match (drives from 0x80), and otherwise locate the handle as a partition
child of some hard disk and match its (start, length) descriptor against
the external partition walker. -/
def resolve_hd_phase (st : DiskState) (trans : List Device)
    (parts : List PartEntry) (dp : List DPNode) : Option (Nat × Nat) :=
  match find_first_match dp st.lists.hd 0x80 with
  | some drv => some (drv, 0xFFFFFF)
  | none =>
    match hd_child_search trans dp st.lists.hd 0x80 with
    | none => none
    | some (drv, c) =>
      match walk_partitions (hd_partition_start c) (hd_partition_size c) parts with
      | none => none
      | some part => some (drv, part)

/-- Function `grub_get_drive_partition_from_bdev_handle`: `dpOpt` is the device
path the firmware reports for the handle (none → not found), `trans`
the transient enumeration `make_devices` would build, `parts` the
entries the external `next_partition` walker would yield.  After the
CDROM truncation the code checks the floppy list (drives from 0), then
only the head of the optical list (at the fixed `cdrom_drive` id), then
the hard-disk list (drives from 0x80); each exact match reports the
whole-disk partition sentinel 0xFFFFFF.  Only then does it fall back to
the partition-child search. -/
def grub_get_drive_partition_from_bdev_handle (st : DiskState)
    (trans : List Device) (parts : List PartEntry)
    (dpOpt : Option (List DPNode)) : Option (Nat × Nat) :=
  match dpOpt with
  | none => none
  | some dp0 =>
    let dp := cdTruncate dp0
    match find_first_match dp st.lists.fd 0 with
    | some drv => some (drv, 0xFFFFFF)
    | none =>
      match st.lists.cd with
      | c :: _ =>
        if compare_device_paths c.device_path dp = 0 then
          some (st.cdrom_drive, 0xFFFFFF)
        else resolve_hd_phase st trans parts dp
      | [] => resolve_hd_phase st trans parts dp

/-- Strict ascending chain under the comparison `add_device` actually
uses (leaf node first, full path on ties). -/
def sortedCompB : List Device → Bool
  | [] => true
  | [_] => true
  | a :: b :: rest =>
    if add_cmp a b < 0 then sortedCompB (b :: rest) else false

/-- Modelled from the spec: the ordering the specification asserts for
the persistent lists — "sorted ascending by DevicePath comparison (ties
broken by leaf-node comparison)", i.e. full path first and the leaf only
on ties.  Used only to compare the spec's claim with the code's actual
order. -/
def claim_cmp (a b : Device) : Int :=
  let r := compare_device_paths a.device_path b.device_path
  if r = 0 then
    compare_device_paths_opt (find_last_device_path a.device_path)
      (find_last_device_path b.device_path)
  else r

/-- Modelled from the spec: strict ascending chain under `claim_cmp`,
the sort order the specification claims for the category lists. -/
def claimSortedB : List Device → Bool
  | [] => true
  | [_] => true
  | a :: b :: rest =>
    if claim_cmp a b < 0 then claimSortedB (b :: rest) else false

/-! ## Lemmas about `memcmp` -/

theorem memcmp_self : ∀ a : List Nat, memcmp a a = 0 := by
  intro a
  induction a with
  | nil => rfl
  | cons x xs ih => simp [memcmp, ih]

theorem memcmp_neg : ∀ a b : List Nat, memcmp a b = -memcmp b a := by
  intro a
  induction a with
  | nil => intro b; cases b <;> simp [memcmp]
  | cons x xs ih =>
    intro b
    cases b with
    | nil => simp [memcmp]
    | cons y ys =>
      by_cases h : x = y
      · subst h; simpa [memcmp] using ih ys
      · have h' : y ≠ x := fun hh => h hh.symm
        simp [memcmp, h, h']

theorem memcmp_trans_lt : ∀ a b c : List Nat,
    memcmp a b < 0 → memcmp b c < 0 → memcmp a c < 0 := by
  intro a
  induction a with
  | nil => intro b c h1 _; simp [memcmp] at h1
  | cons x xs ih =>
    intro b c h1 h2
    cases b with
    | nil => simp [memcmp] at h1
    | cons y ys =>
      cases c with
      | nil => simp [memcmp] at h2
      | cons z zs =>
        by_cases hxy : x = y
        · subst hxy
          simp [memcmp] at h1
          by_cases hyz : x = z
          · subst hyz
            simp [memcmp] at h2 ⊢
            exact ih ys zs h1 h2
          · simp [memcmp, hyz] at h2 ⊢
            omega
        · simp [memcmp, hxy] at h1
          by_cases hyz : y = z
          · subst hyz
            simp [memcmp, hxy]
            omega
          · simp [memcmp, hyz] at h2
            have hxz : x ≠ z := by omega
            simp [memcmp, hxz]
            omega

theorem memcmp_zero_eq : ∀ a b : List Nat,
    a.length = b.length → memcmp a b = 0 → a = b := by
  intro a
  induction a with
  | nil => intro b hl _; cases b with
    | nil => rfl
    | cons y ys => simp at hl
  | cons x xs ih =>
    intro b hl h0
    cases b with
    | nil => simp at hl
    | cons y ys =>
      by_cases hxy : x = y
      · subst hxy
        simp [memcmp] at h0
        simp at hl
        simp [ih ys hl h0]
      · simp [memcmp, hxy] at h0
        omega

/-! ## Lemmas about `nodeCmp` -/

theorem nodeCmp_self (n : DPNode) : nodeCmp n n = 0 := by
  simp [nodeCmp, memcmp_self]

theorem nodeCmp_neg (a b : DPNode) : nodeCmp a b = -nodeCmp b a := by
  unfold nodeCmp
  by_cases h1 : dpType a = dpType b
  · by_cases h2 : a.subtyp = b.subtyp
    · by_cases h3 : a.len = b.len
      · simp [h1, h2, h3, memcmp_neg (serial a) (serial b)]
      · have h3' : b.len ≠ a.len := fun hh => h3 hh.symm
        simp [h1, h2, h3, h3']
    · have h2' : b.subtyp ≠ a.subtyp := fun hh => h2 hh.symm
      simp [h1, h2, h2']
  · have h1' : dpType b ≠ dpType a := fun hh => h1 hh.symm
    simp [h1, h1']

theorem nodeCmp_trans_lt (a b c : DPNode) (h1 : nodeCmp a b < 0)
    (h2 : nodeCmp b c < 0) : nodeCmp a c < 0 := by
  unfold nodeCmp at h1 h2 ⊢
  by_cases t1 : dpType a = dpType b <;> by_cases t2 : dpType b = dpType c <;>
    simp [t1, t2] at h1 h2 ⊢
  · -- types all equal
    have t3 : dpType a = dpType c := t1.trans t2
    simp [t3]
    by_cases s1 : a.subtyp = b.subtyp <;> by_cases s2 : b.subtyp = c.subtyp <;>
      simp [s1, s2] at h1 h2 ⊢
    · have s3 : a.subtyp = c.subtyp := s1.trans s2
      simp [s3]
      by_cases l1 : a.len = b.len <;> by_cases l2 : b.len = c.len <;>
        simp [l1, l2] at h1 h2 ⊢
      · have l3 : a.len = c.len := l1.trans l2
        simp [l3]
        exact memcmp_trans_lt _ _ _ h1 h2
      · have l3 : a.len ≠ c.len := by rw [l1]; exact l2
        simp [l3]; omega
      · have l3 : a.len ≠ c.len := by rw [← l2] at *; exact l1
        simp [l3]; omega
      · by_cases l3 : a.len = c.len
        · omega
        · simp [l3]; omega
    · have s3 : a.subtyp ≠ c.subtyp := by rw [s1]; exact s2
      simp [s3]; omega
    · have s3 : a.subtyp ≠ c.subtyp := by rw [← s2] at *; exact s1
      simp [s3]; omega
    · by_cases s3 : a.subtyp = c.subtyp
      · omega
      · simp [s3]; omega
  · -- dpType a = dpType b, b ≠ c
    have t3 : dpType a ≠ dpType c := by rw [t1]; exact t2
    simp [t3]; omega
  · have t3 : dpType a ≠ dpType c := by rw [← t2] at *; exact t1
    simp [t3]; omega
  · by_cases t3 : dpType a = dpType c
    · omega
    · simp [t3]; omega

theorem nodeCmp_zero_stages (a b : DPNode) (h : nodeCmp a b = 0) :
    dpType a = dpType b ∧ a.subtyp = b.subtyp ∧ a.len = b.len := by
  unfold nodeCmp at h
  by_cases t1 : dpType a = dpType b
  · by_cases s1 : a.subtyp = b.subtyp
    · by_cases l1 : a.len = b.len
      · exact ⟨t1, s1, l1⟩
      · simp [t1, s1, l1] at h; omega
    · simp [t1, s1] at h; omega
  · simp [t1] at h; omega

theorem isEnd_congr_of_nodeCmp (a b : DPNode) (h : nodeCmp a b = 0) :
    isEnd a = isEnd b := by
  obtain ⟨ht, hs, _⟩ := nodeCmp_zero_stages a b h
  simp [isEnd, ht, hs]

theorem nodeCmp_zero_eq (a b : DPNode) (ha : nodeWF a = true)
    (hb : nodeWF b = true) (h : nodeCmp a b = 0) : a = b := by
  unfold nodeCmp at h
  by_cases t1 : dpType a = dpType b
  · by_cases s1 : a.subtyp = b.subtyp
    · by_cases l1 : a.len = b.len
      · simp [t1, s1, l1] at h
        simp [nodeWF] at ha hb
        have hlen : (serial a).length = (serial b).length := by
          simp [serial]
          omega
        have := memcmp_zero_eq _ _ hlen h
        simp [serial] at this
        obtain ⟨htyp, _, _, _, hpay⟩ := this
        cases a; cases b
        simp_all
      · simp [t1, s1, l1] at h; omega
    · simp [t1, s1] at h; omega
  · simp [t1] at h; omega

/-! ## Lemmas about `compare_device_paths` -/

theorem pathWF_cons {n : DPNode} {rest : List DPNode}
    (h : pathWF (n :: rest) = true) (hne : isEnd n = false) :
    nodeWF n = true ∧ pathWF rest = true := by
  simp [pathWF, hne] at h
  exact ⟨h.1, h.2⟩

theorem pathWF_head {n : DPNode} {rest : List DPNode}
    (h : pathWF (n :: rest) = true) : nodeWF n = true := by
  simp [pathWF] at h
  exact h.1

theorem compare_neg : ∀ a b : List DPNode, pathWF a = true → pathWF b = true →
    compare_device_paths a b = -compare_device_paths b a := by
  intro a
  induction a with
  | nil => intro b ha; simp [pathWF] at ha
  | cons n1 r1 ih =>
    intro b ha hb
    cases b with
    | nil => simp [pathWF] at hb
    | cons n2 r2 =>
      by_cases hc : nodeCmp n1 n2 = 0
      · have hc' : nodeCmp n2 n1 = 0 := by rw [nodeCmp_neg] at hc; omega
        have hEnd : isEnd n1 = isEnd n2 := isEnd_congr_of_nodeCmp _ _ hc
        by_cases he : isEnd n1 = true
        · simp [compare_device_paths, hc, hc', he, ← hEnd]
        · have he' : isEnd n1 = false := by simpa using he
          have he2 : isEnd n2 = false := by rw [← hEnd]; exact he'
          have hr1 := (pathWF_cons ha he').2
          have hr2 := (pathWF_cons hb he2).2
          simp [compare_device_paths, hc, hc', he', he2]
          exact ih r2 hr1 hr2
      · have hc' : nodeCmp n2 n1 ≠ 0 := by rw [nodeCmp_neg] at hc; omega
        simp [compare_device_paths, hc, hc']
        exact nodeCmp_neg n1 n2

theorem compare_self : ∀ a : List DPNode, pathWF a = true →
    compare_device_paths a a = 0 := by
  intro a
  induction a with
  | nil => intro ha; simp [pathWF] at ha
  | cons n r ih =>
    intro ha
    by_cases he : isEnd n = true
    · simp [compare_device_paths, nodeCmp_self, he]
    · have he' : isEnd n = false := by simpa using he
      simp [compare_device_paths, nodeCmp_self, he']
      exact ih (pathWF_cons ha he').2

theorem compare_trans_lt : ∀ a b c : List DPNode,
    pathWF a = true → pathWF b = true → pathWF c = true →
    compare_device_paths a b < 0 → compare_device_paths b c < 0 →
    compare_device_paths a c < 0 := by
  intro a
  induction a with
  | nil => intro b c ha; simp [pathWF] at ha
  | cons x r1 ih =>
    intro b c ha hb hc h1 h2
    cases b with
    | nil => simp [pathWF] at hb
    | cons y r2 =>
      cases c with
      | nil => simp [pathWF] at hc
      | cons z r3 =>
        by_cases cxy : nodeCmp x y = 0
        · have hxy : x = y :=
            nodeCmp_zero_eq x y (pathWF_head ha) (pathWF_head hb) cxy
          subst hxy
          -- compare a b went to the recursive branch, so x is not an end node
          by_cases he : isEnd x = true
          · simp [compare_device_paths, cxy, he] at h1
          · have he' : isEnd x = false := by simpa using he
            simp [compare_device_paths, cxy, he'] at h1
            by_cases cyz : nodeCmp x z = 0
            · have hyz : x = z :=
                nodeCmp_zero_eq x z (pathWF_head hb) (pathWF_head hc) cyz
              subst hyz
              simp [compare_device_paths, cxy, he'] at h2 ⊢
              exact ih r2 r3 (pathWF_cons ha he').2 (pathWF_cons hb he').2
                (pathWF_cons hc he').2 h1 h2
            · simp [compare_device_paths, cyz] at h2 ⊢
              exact h2
        · have h1' : nodeCmp x y < 0 := by
            simp [compare_device_paths, cxy] at h1
            exact h1
          by_cases cyz : nodeCmp y z = 0
          · have hyz : y = z :=
              nodeCmp_zero_eq y z (pathWF_head hb) (pathWF_head hc) cyz
            subst hyz
            have : nodeCmp x y ≠ 0 := cxy
            simp [compare_device_paths, cxy]
            exact h1'
          · have h2' : nodeCmp y z < 0 := by
              simp [compare_device_paths, cyz] at h2
              exact h2
            have h3 := nodeCmp_trans_lt x y z h1' h2'
            have h3' : nodeCmp x z ≠ 0 := by omega
            simp [compare_device_paths, h3']
            exact h3

theorem compare_congr_left : ∀ a b : List DPNode,
    pathWF a = true → pathWF b = true → compare_device_paths a b = 0 →
    ∀ c, compare_device_paths a c = compare_device_paths b c := by
  intro a
  induction a with
  | nil => intro b ha; simp [pathWF] at ha
  | cons x r1 ih =>
    intro b ha hb h0 c
    cases b with
    | nil => simp [pathWF] at hb
    | cons y r2 =>
      by_cases cxy : nodeCmp x y = 0
      · have hxy : x = y :=
          nodeCmp_zero_eq x y (pathWF_head ha) (pathWF_head hb) cxy
        subst hxy
        by_cases he : isEnd x = true
        · -- both comparisons stop at x; any continuation is identical
          cases c with
          | nil => simp [compare_device_paths]
          | cons z r3 => simp [compare_device_paths, he]
        · have he' : isEnd x = false := by simpa using he
          simp [compare_device_paths, cxy, he'] at h0
          cases c with
          | nil => simp [compare_device_paths]
          | cons z r3 =>
            by_cases cxz : nodeCmp x z = 0
            · simp [compare_device_paths, cxz, he']
              exact ih r2 (pathWF_cons ha he').2 (pathWF_cons hb he').2 h0 r3
            · simp [compare_device_paths, cxz]
      · simp [compare_device_paths, cxy] at h0

theorem compare_congr_right (a b c : List DPNode)
    (ha : pathWF a = true) (hb : pathWF b = true) (hc : pathWF c = true)
    (h0 : compare_device_paths b c = 0) :
    compare_device_paths a b = compare_device_paths a c := by
  rw [compare_neg a b ha hb, compare_neg a c ha hc,
      compare_congr_left b c hb hc h0 a]

/-! ## Structural lemmas: duplication, leaf location, truncation -/

theorem compare_zero_dup : ∀ a b : List DPNode,
    pathWF a = true → pathWF b = true → compare_device_paths a b = 0 →
    duplicate_device_path a = duplicate_device_path b := by
  intro a
  induction a with
  | nil => intro b ha; simp [pathWF] at ha
  | cons x r1 ih =>
    intro b ha hb h0
    cases b with
    | nil => simp [pathWF] at hb
    | cons y r2 =>
      by_cases cxy : nodeCmp x y = 0
      · have hxy : x = y :=
          nodeCmp_zero_eq x y (pathWF_head ha) (pathWF_head hb) cxy
        subst hxy
        by_cases he : isEnd x = true
        · simp [duplicate_device_path, he]
        · have he' : isEnd x = false := by simpa using he
          simp [compare_device_paths, cxy, he'] at h0
          simp [duplicate_device_path, he']
          exact ih r2 (pathWF_cons ha he').2 (pathWF_cons hb he').2 h0
      · simp [compare_device_paths, cxy] at h0

theorem compare_dup_left : ∀ a : List DPNode, pathWF a = true →
    ∀ c, compare_device_paths (duplicate_device_path a) c =
      compare_device_paths a c := by
  intro a
  induction a with
  | nil => intro ha; simp [pathWF] at ha
  | cons x r ih =>
    intro ha c
    by_cases he : isEnd x = true
    · cases c with
      | nil => simp [duplicate_device_path, he, compare_device_paths]
      | cons z r3 =>
        by_cases cxz : nodeCmp x z = 0
        · simp [duplicate_device_path, he, compare_device_paths, cxz]
        · simp [duplicate_device_path, he, compare_device_paths, cxz]
    · have he' : isEnd x = false := by simpa using he
      cases c with
      | nil => simp [duplicate_device_path, he', compare_device_paths]
      | cons z r3 =>
        by_cases cxz : nodeCmp x z = 0
        · simp [duplicate_device_path, he', compare_device_paths, cxz]
          exact ih (pathWF_cons ha he').2 r3
        · simp [duplicate_device_path, he', compare_device_paths, cxz]

theorem compare_cons_cons_end (x e : DPNode) (j1 j2 : List DPNode)
    (he : isEnd e = true) :
    compare_device_paths (x :: e :: j1) (x :: e :: j2) = 0 := by
  by_cases hx : isEnd x = true
  · simp [compare_device_paths, nodeCmp_self, hx]
  · have hx' : isEnd x = false := by simpa using hx
    simp [compare_device_paths, nodeCmp_self, hx', he]

theorem dup_exact : ∀ q : List DPNode, ∀ e junk,
    (∀ n ∈ q, isEnd n = false) → isEnd e = true →
    duplicate_device_path (q ++ e :: junk) = q ++ [e] := by
  intro q
  induction q with
  | nil => intro e junk _ he; simp [duplicate_device_path, he]
  | cons z q' ih =>
    intro e junk hq he
    have hz : isEnd z = false := hq z (by simp)
    simp [duplicate_device_path, hz]
    exact ih e junk (fun n hn => hq n (by simp [hn])) he

theorem flaux_spec : ∀ q : List DPNode, ∀ p x e junk,
    (∀ n ∈ q, isEnd n = false) → isEnd x = false → isEnd e = true →
    flaux p (q ++ x :: e :: junk) = some (x :: e :: junk) := by
  intro q
  induction q with
  | nil =>
    intro p x e junk _ hx he
    simp [flaux, hx, he]
  | cons z q' ih =>
    intro p x e junk hq hx he
    have hz : isEnd z = false := hq z (by simp)
    simp [flaux, hz]
    exact ih z x e junk (fun n hn => hq n (by simp [hn])) hx he

theorem find_last_spec : ∀ q : List DPNode, ∀ x e junk,
    (∀ n ∈ q, isEnd n = false) → isEnd x = false → isEnd e = true →
    find_last_device_path (q ++ x :: e :: junk) = some (x :: e :: junk) := by
  intro q x e junk hq hx he
  cases q with
  | nil => simp [find_last_device_path, hx, flaux, he]
  | cons z q' =>
    have hz : isEnd z = false := hq z (by simp)
    simp [find_last_device_path, hz]
    exact flaux_spec q' z x e junk (fun n hn => hq n (by simp [hn])) hx he

theorem truncAux_spec : ∀ q : List DPNode, ∀ y e junk,
    (∀ n ∈ q, isEnd n = false) → isEnd e = true →
    truncAux y (q ++ e :: junk) = (y :: q).dropLast ++ [endNode4] := by
  intro q
  induction q with
  | nil => intro y e junk _ he; simp [truncAux, he]
  | cons z q' ih =>
    intro y e junk hq he
    have hz : isEnd z = false := hq z (by simp)
    simp [truncAux, hz]
    have := ih z e junk (fun n hn => hq n (by simp [hn])) he
    rw [this]

theorem truncate_last_spec : ∀ q : List DPNode, ∀ e junk, q ≠ [] →
    (∀ n ∈ q, isEnd n = false) → isEnd e = true →
    truncate_last (q ++ e :: junk) = q.dropLast ++ [endNode4] := by
  intro q e junk hne hq he
  cases q with
  | nil => exact absurd rfl hne
  | cons z q' =>
    have hz : isEnd z = false := hq z (by simp)
    simp [truncate_last, hz]
    exact truncAux_spec q' z e junk (fun n hn => hq n (by simp [hn])) he

theorem pathWF_decomp (n : DPNode) : ∀ rest : List DPNode,
    pathWF (n :: rest) = true → isEnd n = false →
    ∃ q x e junk, n :: rest = q ++ x :: e :: junk ∧
      (∀ m ∈ q, nodeWF m = true ∧ isEnd m = false) ∧
      nodeWF x = true ∧ isEnd x = false ∧ nodeWF e = true ∧ isEnd e = true := by
  intro rest
  induction rest generalizing n with
  | nil =>
    intro hp hne
    simp [pathWF, hne] at hp
  | cons m2 t2 ih =>
    intro hp hne
    have hmwf : nodeWF n = true := pathWF_head hp
    have htail : pathWF (m2 :: t2) = true := (pathWF_cons hp hne).2
    by_cases he2 : isEnd m2 = true
    · exact ⟨[], n, m2, t2, by simp, by simp, hmwf, hne, pathWF_head htail, he2⟩
    · have he2' : isEnd m2 = false := by simpa using he2
      obtain ⟨q, x, e, junk, hdec, hq, hxwf, hxe, hewf, hee⟩ := ih m2 htail he2'
      refine ⟨n :: q, x, e, junk, ?_, ?_, hxwf, hxe, hewf, hee⟩
      · simp [← hdec]
      · intro mm hmm
        rcases List.mem_cons.mp hmm with h | h
        · subst h; exact ⟨hmwf, hne⟩
        · exact hq mm h

theorem pathWF_append_end : ∀ q : List DPNode, ∀ e junk,
    (∀ n ∈ q, nodeWF n = true ∧ isEnd n = false) →
    nodeWF e = true → isEnd e = true → pathWF (q ++ e :: junk) = true := by
  intro q
  induction q with
  | nil => intro e junk _ hewf hee; simp [pathWF, hewf, hee]
  | cons z q' ih =>
    intro e junk hq hewf hee
    have hz := hq z (by simp)
    simp [pathWF, hz.1, hz.2]
    exact ih e junk (fun n hn => hq n (by simp [hn])) hewf hee

/-! ## Lemmas about devices and `add_cmp` -/

theorem devWF_elim {d : Device} (h : devWF d = true) :
    ∃ n rest, d.device_path = n :: rest ∧
      pathWF d.device_path = true ∧ isEnd n = false := by
  unfold devWF at h
  cases hdp : d.device_path with
  | nil => rw [hdp] at h; simp at h
  | cons n rest =>
    rw [hdp] at h
    simp at h
    exact ⟨n, rest, rfl, h.1, by simpa using h.2⟩

theorem find_last_devWF {d : Device} (h : devWF d = true) :
    ∃ q x e junk, d.device_path = q ++ x :: e :: junk ∧
      find_last_device_path d.device_path = some (x :: e :: junk) ∧
      duplicate_device_path d.device_path = q ++ [x, e] ∧
      (∀ m ∈ q, nodeWF m = true ∧ isEnd m = false) ∧
      pathWF (x :: e :: junk) = true ∧
      nodeWF x = true ∧ isEnd x = false ∧ nodeWF e = true ∧ isEnd e = true := by
  obtain ⟨n, rest, hdp, hwf, hne⟩ := devWF_elim h
  rw [hdp] at hwf
  obtain ⟨q, x, e, junk, hdec, hq, hxwf, hxe, hewf, hee⟩ :=
    pathWF_decomp n rest hwf hne
  have hqe : ∀ m ∈ q, isEnd m = false := fun m hm => (hq m hm).2
  refine ⟨q, x, e, junk, by rw [hdp]; exact hdec, ?_, ?_, hq, ?_, hxwf, hxe, hewf, hee⟩
  · rw [hdp, hdec]
    exact find_last_spec q x e junk hqe hxe hee
  · rw [hdp, hdec]
    have h1 : q ++ x :: e :: junk = (q ++ [x]) ++ e :: junk := by simp
    rw [h1]
    rw [dup_exact (q ++ [x]) e junk ?hall hee]
    · simp
    case hall =>
      intro m hm
      rcases List.mem_append.mp hm with hmq | hmx
      · exact hqe m hmq
      · simp at hmx; subst hmx; exact hxe
  · exact pathWF_append_end [x] e junk (by simpa using ⟨hxwf, hxe⟩) hewf hee

theorem add_cmp_leaf {a b : Device} (ha : devWF a = true) (hb : devWF b = true) :
    ∃ sa sb, find_last_device_path a.device_path = some sa ∧
      find_last_device_path b.device_path = some sb ∧
      pathWF sa = true ∧ pathWF sb = true ∧
      add_cmp a b = (if compare_device_paths sa sb = 0 then
        compare_device_paths a.device_path b.device_path
        else compare_device_paths sa sb) := by
  obtain ⟨qa, xa, ea, ja, _, hfa, _, _, hwa, _⟩ := find_last_devWF ha
  obtain ⟨qb, xb, eb, jb, _, hfb, _, _, hwb, _⟩ := find_last_devWF hb
  refine ⟨_, _, hfa, hfb, hwa, hwb, ?_⟩
  unfold add_cmp
  rw [hfa, hfb]
  simp [compare_device_paths_opt]

theorem devWF_pathWF {d : Device} (h : devWF d = true) :
    pathWF d.device_path = true := by
  obtain ⟨n, rest, _, hwf, _⟩ := devWF_elim h
  exact hwf

theorem add_cmp_neg {a b : Device} (ha : devWF a = true) (hb : devWF b = true) :
    add_cmp a b = -add_cmp b a := by
  obtain ⟨sa, sb, hfa, hfb, hwa, hwb, hab⟩ := add_cmp_leaf ha hb
  obtain ⟨sb', sa', hfb', hfa', _, _, hba⟩ := add_cmp_leaf hb ha
  rw [hfb] at hfb'
  rw [hfa] at hfa'
  injection hfb' with hsb
  injection hfa' with hsa
  subst hsb; subst hsa
  rw [hab, hba]
  have hneg := compare_neg sa sb hwa hwb
  by_cases h0 : compare_device_paths sa sb = 0
  · have h0' : compare_device_paths sb sa = 0 := by omega
    simp [h0, h0']
    exact compare_neg _ _ (devWF_pathWF ha) (devWF_pathWF hb)
  · have h0' : compare_device_paths sb sa ≠ 0 := by omega
    simp [h0, h0']
    omega

theorem add_cmp_trans_lt {a b c : Device} (ha : devWF a = true)
    (hb : devWF b = true) (hc : devWF c = true)
    (h1 : add_cmp a b < 0) (h2 : add_cmp b c < 0) : add_cmp a c < 0 := by
  obtain ⟨sa, sb, hfa, hfb, hwa, hwb, hab⟩ := add_cmp_leaf ha hb
  obtain ⟨sb', sc, hfb', hfc, _, hwc, hbc⟩ := add_cmp_leaf hb hc
  obtain ⟨sa', sc', hfa', hfc', _, _, hac⟩ := add_cmp_leaf ha hc
  rw [hfb] at hfb'; injection hfb' with hsb; subst hsb
  rw [hfa] at hfa'; injection hfa' with hsa; subst hsa
  rw [hfc] at hfc'; injection hfc' with hsc; subst hsc
  rw [hab] at h1
  rw [hbc] at h2
  rw [hac]
  by_cases l1 : compare_device_paths sa sb = 0
  · by_cases l2 : compare_device_paths sb sc = 0
    · have l3 : compare_device_paths sa sc = 0 := by
        rw [compare_congr_left sa sb hwa hwb l1 sc]
        exact l2
      simp [l1] at h1
      simp [l2] at h2
      simp [l3]
      exact compare_trans_lt _ _ _ (devWF_pathWF ha) (devWF_pathWF hb)
        (devWF_pathWF hc) h1 h2
    · have l3 : compare_device_paths sa sc = compare_device_paths sb sc := by
        exact compare_congr_left sa sb hwa hwb l1 sc
      simp [l2] at h2
      have l3ne : compare_device_paths sa sc ≠ 0 := by omega
      simp [l3ne]
      omega
  · by_cases l2 : compare_device_paths sb sc = 0
    · have l3 : compare_device_paths sa sc = compare_device_paths sa sb := by
        exact (compare_congr_right sa sb sc hwa hwb hwc l2).symm
      simp [l1] at h1
      have l3ne : compare_device_paths sa sc ≠ 0 := by omega
      simp [l3ne]
      omega
    · simp [l1] at h1
      simp [l2] at h2
      have l3 := compare_trans_lt sa sb sc hwa hwb hwc h1 h2
      have l3ne : compare_device_paths sa sc ≠ 0 := by omega
      simp [l3ne]
      exact l3

theorem add_cmp_zero_of_full_zero {e d : Device} (he : devWF e = true)
    (hd : devWF d = true)
    (h0 : compare_device_paths e.device_path d.device_path = 0) :
    add_cmp e d = 0 := by
  obtain ⟨qa, xa, ea, ja, hdeca, hfa, hdupa, hqa, hwa, hxwfa, hxea, hewfa, heea⟩ :=
    find_last_devWF he
  obtain ⟨qb, xb, eb, jb, hdecb, hfb, hdupb, hqb, hwb, hxwfb, hxeb, hewfb, heeb⟩ :=
    find_last_devWF hd
  have hdup : duplicate_device_path e.device_path =
      duplicate_device_path d.device_path :=
    compare_zero_dup _ _ (devWF_pathWF he) (devWF_pathWF hd) h0
  rw [hdupa, hdupb] at hdup
  have hlen2 : ([xa, ea] : List DPNode).length = ([xb, eb] : List DPNode).length := by
    simp
  obtain ⟨hqeq, hxe⟩ := List.append_inj' hdup hlen2
  simp only [List.cons.injEq, and_true] at hxe
  obtain ⟨hxa, hea⟩ := hxe
  subst hxa; subst hea
  unfold add_cmp
  rw [hfa, hfb]
  simp only [compare_device_paths_opt]
  rw [compare_cons_cons_end xa ea ja jb heea]
  simp
  exact h0

theorem add_cmp_congr_right {a b x : Device} (ha : devWF a = true)
    (hb : devWF b = true) (hx : devWF x = true)
    (h0 : add_cmp a b = 0) : add_cmp x a = add_cmp x b := by
  obtain ⟨sa, sb, hfa, hfb, hwa, hwb, hab⟩ := add_cmp_leaf ha hb
  obtain ⟨sx, sa', hfx, hfa', hwx, _, hxa⟩ := add_cmp_leaf hx ha
  obtain ⟨sx', sb', hfx', hfb', _, _, hxb⟩ := add_cmp_leaf hx hb
  rw [hfa] at hfa'; injection hfa' with hsa; subst hsa
  rw [hfb] at hfb'; injection hfb' with hsb; subst hsb
  rw [hfx] at hfx'; injection hfx' with hsx; subst hsx
  rw [hab] at h0
  by_cases l0 : compare_device_paths sa sb = 0
  · -- the two leaves compare equal and the two full paths compare equal
    simp [l0] at h0
    have hleq : compare_device_paths sx sa = compare_device_paths sx sb :=
      compare_congr_right sx sa sb hwx hwa hwb l0
    have hfeq : compare_device_paths x.device_path a.device_path =
        compare_device_paths x.device_path b.device_path :=
      compare_congr_right _ _ _ (devWF_pathWF hx) (devWF_pathWF ha)
        (devWF_pathWF hb) h0
    rw [hxa, hxb, hleq, hfeq]
  · simp [l0] at h0

/-! ## Sorted-insertion invariants of `add_device` -/

theorem mem_add_device_alloc : ∀ (alloc : Bool) (l : List Device) (d e : Device),
    e ∈ add_device_alloc alloc l d → e ∈ l ∨ e = d := by
  intro alloc l
  induction l with
  | nil =>
    intro d e he
    cases alloc <;> simp [add_device_alloc] at he
    simp [he]
  | cons x rest ih =>
    intro d e he
    by_cases h0 : add_cmp x d = 0
    · simp [add_device_alloc, h0] at he
      rcases he with h | h
      · exact Or.inl (by simp [h])
      · exact Or.inl (by simp [h])
    · by_cases hgt : add_cmp x d > 0
      · cases alloc with
        | false =>
          simp [add_device_alloc, h0, hgt] at he
          rcases he with h | h
          · exact Or.inl (by simp [h])
          · exact Or.inl (by simp [h])
        | true =>
          simp [add_device_alloc, h0, hgt] at he
          rcases he with h | h | h
          · exact Or.inr h
          · exact Or.inl (by simp [h])
          · exact Or.inl (by simp [h])
      · simp [add_device_alloc, h0, hgt] at he
        rcases he with h | h
        · exact Or.inl (by simp [h])
        · rcases ih d e h with h' | h'
          · exact Or.inl (by simp [h'])
          · exact Or.inr h'

theorem sorted_tail {a : Device} {l : List Device}
    (h : sortedCompB (a :: l) = true) : sortedCompB l = true := by
  cases l with
  | nil => rfl
  | cons b t =>
    by_cases hab : add_cmp a b < 0
    · simpa [sortedCompB, hab] using h
    · simp [sortedCompB, hab] at h

theorem sorted_head {a b : Device} {l : List Device}
    (h : sortedCompB (a :: b :: l) = true) : add_cmp a b < 0 := by
  by_cases hab : add_cmp a b < 0
  · exact hab
  · simp [sortedCompB, hab] at h

theorem sorted_cons_intro {x : Device} {t : List Device}
    (ht : sortedCompB t = true)
    (hh : ∀ b t', t = b :: t' → add_cmp x b < 0) :
    sortedCompB (x :: t) = true := by
  cases t with
  | nil => rfl
  | cons b t' => simp [sortedCompB, hh b t' rfl, ht]

theorem sorted_forall : ∀ (l : List Device) (a : Device),
    (∀ e ∈ a :: l, devWF e = true) → sortedCompB (a :: l) = true →
    ∀ b ∈ l, add_cmp a b < 0 := by
  intro l
  induction l with
  | nil => intro a _ _ b hb; simp at hb
  | cons c t ih =>
    intro a hwf hs b hb
    have hac : add_cmp a c < 0 := sorted_head hs
    rcases List.mem_cons.mp hb with h | h
    · subst h; exact hac
    · have hct : add_cmp c b < 0 :=
        ih c (fun e he => hwf e (by simp at he ⊢; tauto)) (sorted_tail hs) b h
      exact add_cmp_trans_lt (hwf a (by simp)) (hwf c (by simp))
        (hwf b (by simp [h])) hac hct

theorem add_device_head : ∀ (l : List Device) (d : Device),
    add_device l d = d :: l ∨
    (∃ y t' t'', l = y :: t' ∧ add_device l d = y :: t'') := by
  intro l d
  cases l with
  | nil => left; simp [add_device, add_device_alloc]
  | cons y t' =>
    by_cases h0 : add_cmp y d = 0
    · right; exact ⟨y, t', t', rfl, by simp [add_device, add_device_alloc, h0]⟩
    · by_cases hgt : add_cmp y d > 0
      · left; simp [add_device, add_device_alloc, h0, hgt]
      · right
        exact ⟨y, t', add_device_alloc true t' d, rfl,
          by simp [add_device, add_device_alloc, h0, hgt]⟩

theorem add_device_sorted : ∀ (l : List Device) (d : Device),
    (∀ e ∈ l, devWF e = true) → devWF d = true → sortedCompB l = true →
    sortedCompB (add_device l d) = true := by
  intro l
  induction l with
  | nil => intro d _ _ _; simp [add_device, add_device_alloc, sortedCompB]
  | cons x rest ih =>
    intro d hwf hd hs
    by_cases h0 : add_cmp x d = 0
    · simpa [add_device, add_device_alloc, h0] using hs
    · by_cases hgt : add_cmp x d > 0
      · have hdx : add_cmp d x < 0 := by
          rw [add_cmp_neg hd (hwf x (by simp))]
          omega
        simp [add_device, add_device_alloc, h0, hgt, sortedCompB, hdx]
        exact hs
      · have hlt : add_cmp x d < 0 := by omega
        have htail : sortedCompB (add_device rest d) = true :=
          ih d (fun e he => hwf e (by simp [he])) hd (sorted_tail hs)
        have hres : add_device (x :: rest) d = x :: add_device rest d := by
          simp [add_device, add_device_alloc, h0, hgt]
        rw [hres]
        refine sorted_cons_intro htail ?_
        intro b t' hbt
        rcases add_device_head rest d with hh | ⟨y, ty, ty', hrest, hh⟩
        · rw [hh] at hbt
          injection hbt with hb _
          subst hb
          exact hlt
        · rw [hh] at hbt
          injection hbt with hb _
          subst hb
          rw [hrest] at hs
          exact sorted_head hs

theorem add_device_dup : ∀ (l : List Device) (d : Device),
    (∀ e ∈ l, devWF e = true) → devWF d = true → sortedCompB l = true →
    (∃ e ∈ l, compare_device_paths e.device_path d.device_path = 0) →
    add_device l d = l := by
  intro l
  induction l with
  | nil => intro d _ _ _ hex; simp at hex
  | cons x rest ih =>
    intro d hwf hd hs hex
    obtain ⟨e, hel, he0⟩ := hex
    rcases List.mem_cons.mp hel with hex0 | hrest
    · subst hex0
      have h0 : add_cmp e d = 0 :=
        add_cmp_zero_of_full_zero (hwf e (by simp)) hd he0
      simp [add_device, add_device_alloc, h0]
    · have he : devWF e = true := hwf e (by simp [hrest])
      have h0e : add_cmp e d = 0 := add_cmp_zero_of_full_zero he hd he0
      have hxe : add_cmp x e < 0 := sorted_forall rest x hwf hs e hrest
      have hxd : add_cmp x d < 0 := by
        rw [← add_cmp_congr_right he hd (hwf x (by simp)) h0e]
        exact hxe
      have h0 : ¬ add_cmp x d = 0 := by omega
      have hgt : ¬ add_cmp x d > 0 := by omega
      have := ih d (fun f hf => hwf f (by simp [hf])) hd (sorted_tail hs)
        ⟨e, hrest, he0⟩
      simp [add_device, add_device_alloc, h0, hgt]
      simpa [add_device] using this

theorem sorted_distinct : ∀ l : List Device,
    (∀ e ∈ l, devWF e = true) → sortedCompB l = true →
    List.Pairwise
      (fun a b => compare_device_paths a.device_path b.device_path ≠ 0) l := by
  intro l
  induction l with
  | nil => intro _ _; exact List.Pairwise.nil
  | cons x rest ih =>
    intro hwf hs
    refine List.Pairwise.cons ?_ (ih (fun e he => hwf e (by simp [he])) (sorted_tail hs))
    intro b hb h0
    have hlt : add_cmp x b < 0 := sorted_forall rest x hwf hs b hb
    have h0' : add_cmp x b = 0 :=
      add_cmp_zero_of_full_zero (hwf x (by simp)) (hwf b (by simp [hb])) h0
    omega

/-- The list built by inserting a sequence of devices into an initially
empty category list, in order, with `add_device`. -/
def build_list (ds : List Device) : List Device :=
  ds.foldl add_device []

theorem build_list_invariant : ∀ (ds : List Device) (acc : List Device),
    (∀ e ∈ ds, devWF e = true) → (∀ e ∈ acc, devWF e = true) →
    sortedCompB acc = true →
    sortedCompB (ds.foldl add_device acc) = true ∧
      (∀ e ∈ ds.foldl add_device acc, devWF e = true) := by
  intro ds
  induction ds with
  | nil => intro acc _ hacc hs; exact ⟨hs, hacc⟩
  | cons d rest ih =>
    intro acc hds hacc hs
    have hd : devWF d = true := hds d (by simp)
    have hacc' : ∀ e ∈ add_device acc d, devWF e = true := by
      intro e he
      rcases mem_add_device_alloc true acc d e he with h | h
      · exact hacc e h
      · subst h; exact hd
    exact ih (add_device acc d) (fun e he => hds e (by simp [he])) hacc'
      (add_device_sorted acc d hacc hd hs)

/-! ## Lemmas about the handle-resolution scans -/

theorem ffm_none (dp : List DPNode) : ∀ (l : List Device) (base : Nat),
    (∀ e ∈ l, compare_device_paths e.device_path dp ≠ 0) →
    find_first_match dp l base = none := by
  intro l
  induction l with
  | nil => intro base _; rfl
  | cons d rest ih =>
    intro base h
    have hd := h d (by simp)
    simp [find_first_match, hd]
    exact ih (base + 1) (fun e he => h e (by simp [he]))

theorem ffm_found (dp : List DPNode) : ∀ (pre : List Device) (d : Device)
    (rest : List Device) (base : Nat),
    (∀ e ∈ pre, compare_device_paths e.device_path dp ≠ 0) →
    compare_device_paths d.device_path dp = 0 →
    find_first_match dp (pre ++ d :: rest) base = some (base + pre.length) := by
  intro pre
  induction pre with
  | nil => intro d rest base _ hd; simp [find_first_match, hd]
  | cons x pre' ih =>
    intro d rest base h hd
    have hx := h x (by simp)
    simp [find_first_match, hx]
    have := ih d rest (base + 1) (fun e he => h e (by simp [he])) hd
    rw [this]
    congr 1
    omega

/-! ## Claim theorems -/

/-- C4: for every well-formed DevicePath p (a node sequence ending in a
terminator), duplicating p and comparing the duplicate against p with
the path comparator yields equal: compare(duplicate(p), p) == equal. -/
theorem C4_duplicate_roundtrip (p : List DPNode) (h : pathWF p = true) :
    compare_device_paths (duplicate_device_path p) p = 0 := by
  rw [compare_dup_left p h p]
  exact compare_self p h

theorem C4_witness :
    pathWF [⟨1, 1, 4, []⟩, endNode4] = true ∧
    compare_device_paths (duplicate_device_path [⟨1, 1, 4, []⟩, endNode4])
      [⟨1, 1, 4, []⟩, endNode4] = 0 :=
  ⟨by decide, C4_duplicate_roundtrip [⟨1, 1, 4, []⟩, endNode4] (by decide)⟩

/-- C5: the path comparator is a strict total order on well-formed
device paths: antisymmetric (swapping the arguments negates the result)
and transitive (both for the strict order and for equality), and the
comparison is lexicographic per node: a masked-type difference dominates
everything and orders with the larger type first, then subtype
ascending, then declared length ascending, then payload bytes. -/
theorem C5_comparator_strict_total_order :
    (∀ a b, pathWF a = true → pathWF b = true →
      compare_device_paths a b = -compare_device_paths b a) ∧
    (∀ a b c, pathWF a = true → pathWF b = true → pathWF c = true →
      compare_device_paths a b < 0 → compare_device_paths b c < 0 →
      compare_device_paths a c < 0) ∧
    (∀ a b c, pathWF a = true → pathWF b = true →
      compare_device_paths a b = 0 → compare_device_paths b c = 0 →
      compare_device_paths a c = 0) ∧
    (∀ n1 n2 r1 r2, dpType n1 ≠ dpType n2 →
      compare_device_paths (n1 :: r1) (n2 :: r2) =
        (dpType n2 : Int) - (dpType n1 : Int)) ∧
    (∀ n1 n2 r1 r2, dpType n1 = dpType n2 → n1.subtyp ≠ n2.subtyp →
      compare_device_paths (n1 :: r1) (n2 :: r2) =
        (n1.subtyp : Int) - (n2.subtyp : Int)) ∧
    (∀ n1 n2 r1 r2, dpType n1 = dpType n2 → n1.subtyp = n2.subtyp →
      n1.len ≠ n2.len →
      compare_device_paths (n1 :: r1) (n2 :: r2) =
        (n1.len : Int) - (n2.len : Int)) := by
  refine ⟨compare_neg, compare_trans_lt, ?_, ?_, ?_, ?_⟩
  · intro a b c ha hb hab hbc
    rw [compare_congr_left a b ha hb hab c]
    exact hbc
  · intro n1 n2 r1 r2 ht
    have h1 : nodeCmp n1 n2 = (dpType n2 : Int) - (dpType n1 : Int) := by
      simp [nodeCmp, ht]
    have h2 : nodeCmp n1 n2 ≠ 0 := by rw [h1]; omega
    simp [compare_device_paths, h2, h1]
    intro hcon
    exact absurd hcon (by omega)
  · intro n1 n2 r1 r2 ht hs
    have h1 : nodeCmp n1 n2 = (n1.subtyp : Int) - (n2.subtyp : Int) := by
      simp [nodeCmp, ht, hs]
    have h2 : nodeCmp n1 n2 ≠ 0 := by rw [h1]; omega
    simp [compare_device_paths, h2, h1]
    intro hcon
    exact absurd hcon (by omega)
  · intro n1 n2 r1 r2 ht hs hl
    have h1 : nodeCmp n1 n2 = (n1.len : Int) - (n2.len : Int) := by
      simp [nodeCmp, ht, hs, hl]
    have h2 : nodeCmp n1 n2 ≠ 0 := by rw [h1]; omega
    simp [compare_device_paths, h2, h1]
    intro hcon
    exact absurd hcon (by omega)

theorem C5_witness :
    (compare_device_paths [⟨1, 1, 4, []⟩, endNode4] [⟨2, 1, 4, []⟩, endNode4] =
      -compare_device_paths [⟨2, 1, 4, []⟩, endNode4] [⟨1, 1, 4, []⟩, endNode4]) ∧
    (compare_device_paths [⟨3, 1, 4, []⟩, endNode4] [⟨1, 1, 4, []⟩, endNode4] < 0) ∧
    (compare_device_paths [⟨1, 1, 4, []⟩, endNode4] [⟨1, 1, 4, []⟩, endNode4] = 0) ∧
    (compare_device_paths [(⟨1, 1, 4, []⟩ : DPNode)] [(⟨2, 7, 9, []⟩ : DPNode)] =
      (dpType ⟨2, 7, 9, []⟩ : Int) - (dpType ⟨1, 1, 4, []⟩ : Int)) ∧
    (compare_device_paths [(⟨1, 1, 4, []⟩ : DPNode)] [(⟨1, 2, 9, []⟩ : DPNode)] =
      ((⟨1, 1, 4, []⟩ : DPNode).subtyp : Int) - ((⟨1, 2, 9, []⟩ : DPNode).subtyp : Int)) ∧
    (compare_device_paths [(⟨1, 1, 4, []⟩ : DPNode)] [(⟨1, 1, 5, [9]⟩ : DPNode)] =
      ((⟨1, 1, 4, []⟩ : DPNode).len : Int) - ((⟨1, 1, 5, [9]⟩ : DPNode).len : Int)) :=
  ⟨C5_comparator_strict_total_order.1 _ _ (by decide) (by decide),
   C5_comparator_strict_total_order.2.1 [⟨3, 1, 4, []⟩, endNode4]
     [⟨2, 1, 4, []⟩, endNode4] [⟨1, 1, 4, []⟩, endNode4]
     (by decide) (by decide) (by decide) (by decide) (by decide),
   C5_comparator_strict_total_order.2.2.1 [⟨1, 1, 4, []⟩, endNode4]
     [⟨1, 1, 4, []⟩, endNode4] [⟨1, 1, 4, []⟩, endNode4]
     (by decide) (by decide) (by decide) (by decide),
   C5_comparator_strict_total_order.2.2.2.1 _ _ [] [] (by decide),
   C5_comparator_strict_total_order.2.2.2.2.1 _ _ [] [] (by decide) (by decide),
   C5_comparator_strict_total_order.2.2.2.2.2 _ _ [] [] (by decide) (by decide)
     (by decide)⟩

/-- C8: for a parent path and a candidate path built from well-formed
non-terminator nodes and the standard 4-byte terminator, the child test
(truncate the candidate's duplicated path by one node to a terminator,
then compare for equality against the parent's full path) succeeds
exactly when the candidate's node sequence is the parent's plus exactly
one extra trailing node; a candidate with an unrelated path is not a
child. -/
theorem C8_is_child_iff (pre q : List DPNode)
    (hpre : ∀ n ∈ pre, nodeWF n = true ∧ isEnd n = false)
    (hq : ∀ n ∈ q, nodeWF n = true ∧ isEnd n = false)
    (hne : q ≠ []) :
    is_child (pre ++ [endNode4]) (q ++ [endNode4]) = true ↔
      ∃ x, q = pre ++ [x] := by
  have hqe : ∀ n ∈ q, isEnd n = false := fun n hn => (hq n hn).2
  have hend : isEnd endNode4 = true := by decide
  have hdup : duplicate_device_path (q ++ [endNode4]) = q ++ [endNode4] :=
    dup_exact q endNode4 [] hqe hend
  have htr : truncate_last (q ++ [endNode4]) = q.dropLast ++ [endNode4] :=
    truncate_last_spec q endNode4 [] hne hqe hend
  unfold is_child
  rw [hdup, htr]
  have hwf_pre : pathWF (pre ++ [endNode4]) = true :=
    pathWF_append_end pre endNode4 [] hpre (by decide) hend
  have hwf_dl : pathWF (q.dropLast ++ [endNode4]) = true :=
    pathWF_append_end _ endNode4 []
      (fun n hn => hq n (List.mem_of_mem_dropLast hn)) (by decide) hend
  constructor
  · intro hb
    have h0 : compare_device_paths (q.dropLast ++ [endNode4])
        (pre ++ [endNode4]) = 0 := by
      exact beq_iff_eq.mp hb
    have hdeq := compare_zero_dup _ _ hwf_dl hwf_pre h0
    rw [dup_exact q.dropLast endNode4 []
      (fun n hn => hqe n (List.mem_of_mem_dropLast hn)) hend] at hdeq
    rw [dup_exact pre endNode4 [] (fun n hn => (hpre n hn).2) hend] at hdeq
    obtain ⟨heq, _⟩ := List.append_inj' hdeq (by simp)
    refine ⟨q.getLast hne, ?_⟩
    rw [← heq]
    exact (List.dropLast_append_getLast hne).symm
  · rintro ⟨x, rfl⟩
    rw [List.dropLast_concat]
    rw [compare_self _ hwf_pre]
    rfl

theorem C8_witness :
    is_child ([⟨1, 1, 4, []⟩] ++ [endNode4])
      ([⟨1, 1, 4, []⟩, ⟨4, 1, 8, [1, 2, 3, 4]⟩] ++ [endNode4]) = true ∧
    is_child ([⟨1, 1, 4, []⟩] ++ [endNode4])
      ([⟨2, 2, 4, []⟩, ⟨4, 1, 8, [1, 2, 3, 4]⟩] ++ [endNode4]) = false :=
  ⟨(C8_is_child_iff [⟨1, 1, 4, []⟩] [⟨1, 1, 4, []⟩, ⟨4, 1, 8, [1, 2, 3, 4]⟩]
      (by decide) (by decide) (by decide)).mpr ⟨⟨4, 1, 8, [1, 2, 3, 4]⟩, rfl⟩,
   by
    have h := (C8_is_child_iff [⟨1, 1, 4, []⟩] [⟨2, 2, 4, []⟩, ⟨4, 1, 8, [1, 2, 3, 4]⟩]
      (by decide) (by decide) (by decide))
    by_contra hc
    simp at hc
    obtain ⟨x, hx⟩ := h.mp hc
    simp at hx⟩

/-- First device of the C3 counterexample: full path greater than
`c3dev2`'s (its first node has the smaller masked type, and type
differences order with the larger type first), but leaf smaller than
`c3dev2`'s (smaller leaf subtype). -/
def c3dev1 : Device :=
  ⟨1, [⟨1, 1, 4, []⟩, ⟨3, 1, 4, []⟩, endNode4],
   some [⟨3, 1, 4, []⟩, endNode4], 0, false, 512, 0⟩

/-- Second device of the C3 counterexample. -/
def c3dev2 : Device :=
  ⟨2, [⟨2, 1, 4, []⟩, ⟨3, 2, 4, []⟩, endNode4],
   some [⟨3, 2, 4, []⟩, endNode4], 0, false, 512, 0⟩

/-- C3 counterexample: two well-formed devices whose leaf order and
full-path order disagree.  `add_device` inserts them in leaf order, so
the resulting list is not sorted ascending by full-DevicePath comparison
as the claim states. -/
theorem C3_counterexample :
    devWF c3dev1 = true ∧ devWF c3dev2 = true ∧
    [c3dev1, c3dev2].foldl add_device [] = [c3dev1, c3dev2] ∧
    claimSortedB [c3dev1, c3dev2] = false := by decide

/-- C3 (amended): every category list built by any sequence of
`add_device` insertions into an initially empty list is sorted strictly
ascending by leaf-node comparison with ties broken by full-DevicePath
comparison, never contains two devices with compare-equal DevicePaths,
and inserting a device whose DevicePath compares equal to an existing
entry's leaves the list's contents (hence length) unchanged. -/
theorem C3_amended_sorted_dedup (ds : List Device)
    (hwf : ∀ d ∈ ds, devWF d = true) :
    sortedCompB (build_list ds) = true ∧
    List.Pairwise (fun a b =>
      compare_device_paths a.device_path b.device_path ≠ 0) (build_list ds) ∧
    ∀ d, devWF d = true →
      (∃ e ∈ build_list ds,
        compare_device_paths e.device_path d.device_path = 0) →
      add_device (build_list ds) d = build_list ds := by
  have hinv := build_list_invariant ds [] hwf (by simp) (by rfl)
  refine ⟨hinv.1, sorted_distinct _ hinv.2 hinv.1, ?_⟩
  intro d hd hex
  exact add_device_dup _ d hinv.2 hd hinv.1 hex

theorem C3_amended_witness :
    sortedCompB (build_list [c3dev1, c3dev2]) = true ∧
    add_device (build_list [c3dev1, c3dev2]) c3dev1 = build_list [c3dev1, c3dev2] :=
  ⟨(C3_amended_sorted_dedup [c3dev1, c3dev2] (by decide)).1,
   (C3_amended_sorted_dedup [c3dev1, c3dev2] (by decide)).2.2 c3dev1 (by decide)
     ⟨c3dev1, by decide, by decide⟩⟩

/-- C10: when the allocation of the new list node fails during sorted
insertion, `add_device` returns with the target list exactly unchanged,
and a whole `name_devices` pass under failing allocations leaves all
three persistent lists unchanged; neither function has any channel to
report the failure (both return only the lists, as the C functions are
`void`), so the device is silently absent. -/
theorem C10_alloc_failure_silent :
    (∀ (l : List Device) (d : Device), add_device_alloc false l d = l) ∧
    (∀ (devices : List Device) (s : DeviceLists),
      name_devices false devices s = s) := by
  have h1 : ∀ (l : List Device) (d : Device), add_device_alloc false l d = l := by
    intro l d
    induction l with
    | nil => rfl
    | cons x rest ih =>
      by_cases h0 : add_cmp x d = 0
      · simp [add_device_alloc, h0]
      · by_cases hgt : add_cmp x d > 0
        · simp [add_device_alloc, h0, hgt]
        · simp [add_device_alloc, h0, hgt, ih]
  refine ⟨h1, ?_⟩
  intro devices
  induction devices with
  | nil => intro s; rfl
  | cons d rest ih =>
    intro s
    have hstep : name_devices_core false s d = s := by
      unfold name_devices_core
      cases d.last_device_path with
      | none => rfl
      | some dp =>
        by_cases hm : dpHeadType dp = GRUB_EFI_MESSAGING_DEVICE_PATH_TYPE <;>
        by_cases ha : dpHeadType dp = GRUB_EFI_ACPI_DEVICE_PATH_TYPE <;>
        by_cases hro : (d.read_only && decide (d.block_size > SECTOR_SIZE)) = true <;>
        simp [hm, ha, hro, h1]
    show name_devices false rest (name_devices_core false s d) = s
    rw [hstep]
    exact ih s

/-- C6: classification in `name_devices` depends only on the cached leaf
node and the media parameters: a messaging-type leaf with read-only
media and block size strictly greater than 512 goes to the optical list;
a messaging leaf otherwise goes to the hard-disk list; an ACPI-type leaf
goes to the floppy list; any other leaf type is inserted into no
persistent list. -/
theorem C6_classification (s : DeviceLists) (d : Device) (dp : List DPNode)
    (hdp : d.last_device_path = some dp) :
    (dpHeadType dp = GRUB_EFI_MESSAGING_DEVICE_PATH_TYPE →
      d.read_only = true → d.block_size > SECTOR_SIZE →
      name_devices_core true s d = { s with cd := add_device s.cd d }) ∧
    (dpHeadType dp = GRUB_EFI_MESSAGING_DEVICE_PATH_TYPE →
      (d.read_only = false ∨ d.block_size ≤ SECTOR_SIZE) →
      name_devices_core true s d = { s with hd := add_device s.hd d }) ∧
    (dpHeadType dp = GRUB_EFI_ACPI_DEVICE_PATH_TYPE →
      name_devices_core true s d = { s with fd := add_device s.fd d }) ∧
    (dpHeadType dp ≠ GRUB_EFI_MESSAGING_DEVICE_PATH_TYPE →
      dpHeadType dp ≠ GRUB_EFI_ACPI_DEVICE_PATH_TYPE →
      name_devices_core true s d = s) := by
  refine ⟨?_, ?_, ?_, ?_⟩
  · intro hm hro hbs
    have hna : dpHeadType dp ≠ GRUB_EFI_ACPI_DEVICE_PATH_TYPE := by
      rw [hm]; decide
    simp [name_devices_core, hdp, hm, hna, hro, hbs, add_device,
      GRUB_EFI_MESSAGING_DEVICE_PATH_TYPE, GRUB_EFI_ACPI_DEVICE_PATH_TYPE]
  · intro hm hcase
    have hna : dpHeadType dp ≠ GRUB_EFI_ACPI_DEVICE_PATH_TYPE := by
      rw [hm]; decide
    have hcond : (d.read_only && decide (d.block_size > SECTOR_SIZE)) = false := by
      rcases hcase with h | h
      · simp [h]
      · simp
        intro _
        omega
    simp [name_devices_core, hdp, hm, hna, hcond, add_device,
      GRUB_EFI_MESSAGING_DEVICE_PATH_TYPE, GRUB_EFI_ACPI_DEVICE_PATH_TYPE]
  · intro ha
    have hnm : dpHeadType dp ≠ GRUB_EFI_MESSAGING_DEVICE_PATH_TYPE := by
      rw [ha]; decide
    simp [name_devices_core, hdp, ha, hnm, add_device,
      GRUB_EFI_MESSAGING_DEVICE_PATH_TYPE, GRUB_EFI_ACPI_DEVICE_PATH_TYPE]
  · intro hnm hna
    simp [name_devices_core, hdp, hnm, hna]

/-- Witness device routed to the optical list: messaging leaf,
read-only, 2048-byte blocks. -/
def c6cd : Device :=
  ⟨1, [⟨3, 1, 4, []⟩, endNode4], some [⟨3, 1, 4, []⟩, endNode4], 0, true, 2048, 0⟩

/-- Witness device routed to the hard-disk list: same messaging leaf,
not read-only. -/
def c6hd : Device :=
  ⟨2, [⟨3, 1, 4, []⟩, endNode4], some [⟨3, 1, 4, []⟩, endNode4], 0, false, 512, 0⟩

/-- Witness device routed to the floppy list: ACPI leaf. -/
def c6fd : Device :=
  ⟨3, [⟨2, 1, 4, []⟩, endNode4], some [⟨2, 1, 4, []⟩, endNode4], 0, false, 512, 0⟩

/-- Witness device routed nowhere: media-type leaf. -/
def c6no : Device :=
  ⟨4, [⟨4, 1, 4, []⟩, endNode4], some [⟨4, 1, 4, []⟩, endNode4], 0, false, 512, 0⟩

theorem C6_witness :
    name_devices_core true ⟨[], [], []⟩ c6cd =
      { (⟨[], [], []⟩ : DeviceLists) with cd := add_device [] c6cd } ∧
    name_devices_core true ⟨[], [], []⟩ c6hd =
      { (⟨[], [], []⟩ : DeviceLists) with hd := add_device [] c6hd } ∧
    name_devices_core true ⟨[], [], []⟩ c6fd =
      { (⟨[], [], []⟩ : DeviceLists) with fd := add_device [] c6fd } ∧
    name_devices_core true ⟨[], [], []⟩ c6no = ⟨[], [], []⟩ :=
  ⟨(C6_classification ⟨[], [], []⟩ c6cd _ rfl).1 (by decide) (by decide) (by decide),
   (C6_classification ⟨[], [], []⟩ c6hd _ rfl).2.1 (by decide) (Or.inl (by decide)),
   (C6_classification ⟨[], [], []⟩ c6fd _ rfl).2.2.1 (by decide),
   (C6_classification ⟨[], [], []⟩ c6no _ rfl).2.2.2 (by decide) (by decide)⟩

/-- C7: for every resolvable drive, `get_diskinfo` reports
`total_sectors = last_block + 1`, `sector_size = block_size`, 63 sectors
per track, 1 head when `total_sectors / 63 < 255` and 255 heads
otherwise, and `cylinders = total_sectors / 63 / heads` with truncating
division; in particular a 1,000,000-sector disk gets 255 heads and 62
cylinders. -/
theorem C7_geometry (st : DiskState) (drive : Nat) (d : Device)
    (h : get_device_from_drive st drive = some d) :
    ∃ g, get_diskinfo st drive = some g ∧
      g.total_sectors = d.last_block + 1 ∧
      g.sector_size = d.block_size ∧
      g.sectors = 63 ∧
      (g.total_sectors / 63 < 255 → g.heads = 1) ∧
      (255 ≤ g.total_sectors / 63 → g.heads = 255) ∧
      g.cylinders = g.total_sectors / 63 / g.heads ∧
      (g.total_sectors = 1000000 → g.heads = 255 ∧ g.cylinders = 62) := by
  refine ⟨{ cylinders := (d.last_block + 1) / 63 /
              (if (d.last_block + 1) / 63 < 255 then 1 else 255),
            heads := if (d.last_block + 1) / 63 < 255 then 1 else 255,
            sectors := 63, total_sectors := d.last_block + 1,
            sector_size := d.block_size,
            flags := BIOSDISK_FLAG_LBA_EXTENSION }, ?_, rfl, rfl, rfl, ?_, ?_, rfl, ?_⟩
  · simp [get_diskinfo, h]
  · intro hlt; simp [hlt]
  · intro hge
    have hge' : 255 ≤ (d.last_block + 1) / 63 := by simpa using hge
    have hnlt : ¬ (d.last_block + 1) / 63 < 255 := by omega
    simp [hnlt]
  · intro h1m
    have h63 : (d.last_block + 1) / 63 = 15873 := by
      have : d.last_block + 1 = 1000000 := h1m
      rw [this]
    have hnlt : ¬ (d.last_block + 1) / 63 < 255 := by rw [h63]; omega
    constructor
    · simp [hnlt]
    · simp [hnlt, h63]

/-- Hard disk used by the C7 witness: 1,000,000 total sectors. -/
def c7dev : Device :=
  ⟨1, [⟨3, 1, 4, []⟩, endNode4], some [⟨3, 1, 4, []⟩, endNode4],
   5, false, 512, 999999⟩

/-- State of the C7 witness: one hard disk, drive number 0x80. -/
def c7st : DiskState := ⟨⟨[], [c7dev], []⟩, 0xE0, 0xFF⟩

theorem C7_witness :
    ∃ g, get_diskinfo c7st 0x80 = some g ∧
      g.total_sectors = c7dev.last_block + 1 ∧
      g.sector_size = c7dev.block_size ∧
      g.sectors = 63 ∧
      (g.total_sectors / 63 < 255 → g.heads = 1) ∧
      (255 ≤ g.total_sectors / 63 → g.heads = 255) ∧
      g.cylinders = g.total_sectors / 63 / g.heads ∧
      (g.total_sectors = 1000000 → g.heads = 255 ∧ g.cylinders = 62) :=
  C7_geometry c7st 0x80 c7dev (by decide)

/-- C9: every sector-addressed read or write issues exactly one
byte-addressed transfer whose offset is `sector * block_size`, whose
length is `count * block_size` and which carries the device's media
identifier; e.g. sector 10 with 512-byte blocks gives offset 5120, and
4 sectors give length 2048. -/
theorem C9_byte_translation :
    (∀ (d : Device) (sector count : Nat),
      (efidisk_io_request false d sector count).offset = sector * d.block_size ∧
      (efidisk_io_request false d sector count).length = count * d.block_size ∧
      (efidisk_io_request false d sector count).media_id = d.media_id ∧
      (efidisk_io_request true d sector count).offset = sector * d.block_size ∧
      (efidisk_io_request true d sector count).length = count * d.block_size ∧
      (efidisk_io_request true d sector count).media_id = d.media_id) ∧
    (∀ (collab : TransferReq → Nat) (d : Device) (sector count : Nat),
      grub_efidisk_read collab d sector count =
        (if collab (efidisk_io_request false d sector count) ≠ GRUB_EFI_SUCCESS
         then -1 else 0) ∧
      grub_efidisk_write collab d sector count =
        (if collab (efidisk_io_request true d sector count) ≠ GRUB_EFI_SUCCESS
         then -1 else 0)) ∧
    ((efidisk_io_request false ⟨0, [], none, 0, false, 512, 0⟩ 10 4).offset = 5120 ∧
     (efidisk_io_request false ⟨0, [], none, 0, false, 512, 0⟩ 10 4).length = 2048) :=
  ⟨fun _ _ _ => ⟨rfl, rfl, rfl, rfl, rfl, rfl⟩,
   fun _ _ _ _ => ⟨rfl, rfl⟩,
   by decide⟩

/-- Hard disk used by the C1 failing input. -/
def c1dev : Device :=
  ⟨1, [⟨3, 1, 4, []⟩, endNode4], some [⟨3, 1, 4, []⟩, endNode4],
   5, false, 512, 99⟩

/-- State of the C1 failing input: one hard disk at drive 0x80. -/
def c1st : DiskState := ⟨⟨[], [c1dev], []⟩, 0xE0, 0xFF⟩

/-- C1 (code-bug evidence): with a transfer collaborator that fails
every request (status 1), `grub_efidisk_read` itself reports -1, the
drive resolves, and yet `biosdisk` returns 0 (success) for both the read
and the write dispatch, because the C code stores the transfer result in
`ret` and then returns 0 unconditionally. -/
theorem C1_biosdisk_ignores_transfer_failure :
    grub_efidisk_read (fun _ => 1) c1dev 0 1 = -1 ∧
    get_device_from_drive c1st 0x80 = some c1dev ∧
    biosdisk c1st (fun _ => 1) BIOSDISK_READ 0x80 0 1 = 0 ∧
    biosdisk c1st (fun _ => 1) BIOSDISK_WRITE 0x80 0 1 = 0 := by
  refine ⟨by decide, by decide, ?_, ?_⟩ <;> decide

/-- C2 (amended): `grub_get_drive_partition_from_bdev_handle` checks the
persistent lists in the order floppies (positional drive numbers from
0), then only the FIRST optical entry (reported at the fixed
`cdrom_drive` id), then whole-disk hard drives (positional drive numbers
from 0x80); each such exact match (against the CDROM-truncated handle
path) reports partition = 0xFFFFFF, the whole-disk sentinel. -/
theorem C2_amended_resolution (st : DiskState) (trans : List Device)
    (parts : List PartEntry) (dp : List DPNode) :
    (∀ pre d rest, st.lists.fd = pre ++ d :: rest →
      (∀ e ∈ pre, compare_device_paths e.device_path (cdTruncate dp) ≠ 0) →
      compare_device_paths d.device_path (cdTruncate dp) = 0 →
      grub_get_drive_partition_from_bdev_handle st trans parts (some dp) =
        some (pre.length, 0xFFFFFF)) ∧
    (∀ c rest, st.lists.cd = c :: rest →
      (∀ e ∈ st.lists.fd, compare_device_paths e.device_path (cdTruncate dp) ≠ 0) →
      compare_device_paths c.device_path (cdTruncate dp) = 0 →
      grub_get_drive_partition_from_bdev_handle st trans parts (some dp) =
        some (st.cdrom_drive, 0xFFFFFF)) ∧
    (∀ pre d rest, st.lists.hd = pre ++ d :: rest →
      (∀ e ∈ st.lists.fd, compare_device_paths e.device_path (cdTruncate dp) ≠ 0) →
      (∀ c crest, st.lists.cd = c :: crest →
        compare_device_paths c.device_path (cdTruncate dp) ≠ 0) →
      (∀ e ∈ pre, compare_device_paths e.device_path (cdTruncate dp) ≠ 0) →
      compare_device_paths d.device_path (cdTruncate dp) = 0 →
      grub_get_drive_partition_from_bdev_handle st trans parts (some dp) =
        some (0x80 + pre.length, 0xFFFFFF)) := by
  refine ⟨?_, ?_, ?_⟩
  · intro pre d rest hfd hpre hd
    have hffm : find_first_match (cdTruncate dp) st.lists.fd 0 =
        some (0 + pre.length) := by
      rw [hfd]
      exact ffm_found (cdTruncate dp) pre d rest 0 hpre hd
    simp only [grub_get_drive_partition_from_bdev_handle, hffm]
    simp
  · intro c rest hcd hfd hc
    have hffm : find_first_match (cdTruncate dp) st.lists.fd 0 = none :=
      ffm_none (cdTruncate dp) st.lists.fd 0 hfd
    simp only [grub_get_drive_partition_from_bdev_handle, hffm, hcd]
    simp [hc]
  · intro pre d rest hhd hfd hcd hpre hd
    have hffm : find_first_match (cdTruncate dp) st.lists.fd 0 = none :=
      ffm_none (cdTruncate dp) st.lists.fd 0 hfd
    have hhdm : find_first_match (cdTruncate dp) st.lists.hd 0x80 =
        some (0x80 + pre.length) := by
      rw [hhd]
      exact ffm_found (cdTruncate dp) pre d rest 0x80 hpre hd
    have hphase : resolve_hd_phase st trans parts (cdTruncate dp) =
        some (0x80 + pre.length, 0xFFFFFF) := by
      simp only [resolve_hd_phase, hhdm]
    simp only [grub_get_drive_partition_from_bdev_handle, hffm]
    cases hcdl : st.lists.cd with
    | nil => simpa using hphase
    | cons c crest =>
      have hcne := hcd c crest hcdl
      simp [hcne]
      exact hphase

/-- First optical device of the C2 counterexample/witness states. -/
def c2cd1 : Device :=
  ⟨3, [⟨3, 1, 4, []⟩, endNode4], some [⟨3, 1, 4, []⟩, endNode4], 1, true, 2048, 9⟩

/-- Second optical device: an exact persistent-list entry that the code
never reaches, because only the head of the optical list is checked. -/
def c2cd2 : Device :=
  ⟨4, [⟨3, 2, 4, []⟩, endNode4], some [⟨3, 2, 4, []⟩, endNode4], 2, true, 2048, 9⟩

/-- C2 counterexample state: no floppies, no hard disks, two optical
devices. -/
def c2st : DiskState := ⟨⟨[], [], [c2cd1, c2cd2]⟩, 0xE0, 0xFF⟩

/-- C2 counterexample: the handle's device path exactly equals the
second optical entry's path, yet resolution returns not-found instead of
reporting that entry with the whole-disk sentinel — so it is not the
case that every exact persistent-list match is reported, and the checks
cannot start with the (whole) optical list as claimed. -/
theorem C2_counterexample :
    (∃ e ∈ c2st.lists.cd,
      compare_device_paths e.device_path
        (cdTruncate c2cd2.device_path) = 0) ∧
    grub_get_drive_partition_from_bdev_handle c2st [] []
      (some c2cd2.device_path) = none := by
  constructor
  · exact ⟨c2cd2, by decide, by decide⟩
  · decide

/-- Floppy entry of the C2 witness state. -/
def c2wfd : Device :=
  ⟨5, [⟨2, 1, 4, []⟩, endNode4], some [⟨2, 1, 4, []⟩, endNode4], 0, false, 512, 0⟩

/-- Hard-disk entry of the C2 witness state. -/
def c2whd : Device :=
  ⟨6, [⟨3, 5, 4, []⟩, endNode4], some [⟨3, 5, 4, []⟩, endNode4], 0, false, 512, 0⟩

/-- C2 witness state: one floppy, one hard disk, one optical device. -/
def c2wst : DiskState := ⟨⟨[c2wfd], [c2whd], [c2cd1]⟩, 0xE0, 0xFF⟩

theorem C2_witness :
    grub_get_drive_partition_from_bdev_handle c2wst [] []
      (some c2wfd.device_path) = some (0, 0xFFFFFF) ∧
    grub_get_drive_partition_from_bdev_handle c2wst [] []
      (some c2cd1.device_path) = some (0xE0, 0xFFFFFF) ∧
    grub_get_drive_partition_from_bdev_handle c2wst [] []
      (some c2whd.device_path) = some (0x80, 0xFFFFFF) :=
  ⟨(C2_amended_resolution c2wst [] [] c2wfd.device_path).1 [] c2wfd []
     (by decide) (by decide) (by decide),
   (C2_amended_resolution c2wst [] [] c2cd1.device_path).2.1 c2cd1 []
     (by decide) (by decide) (by decide),
   (C2_amended_resolution c2wst [] [] c2whd.device_path).2.2 [] c2whd []
     (by decide) (by decide)
     (by
       intro c crest hc
       have h2 : ([c2cd1] : List Device) = c :: crest := hc
       have h3 : c2cd1 = c := by injection h2
       rw [← h3]
       decide)
     (by decide) (by decide)⟩
